import Mathlib

/-!
Shallow embedding of `src/mass_undelete.py` (class `RestoreManager`) and proofs
about its adaptive-concurrency restore loop.

Modelling conventions:
- Python strings are `List Char`; `needle in hay` is `containsSub`.
- Wall-clock times and float rates are embedded as exact rationals `ℚ`.
  The floats the program manipulates are small counts divided by window sizes
  (at most 100 entries) and products `current * 0.5` / `current * 1.2` with
  `current ≤ 600`; at these magnitudes IEEE double arithmetic is exact enough
  that every comparison and truncation in the source agrees with the exact
  rational value, so `int(current * 0.5) = current / 2` and
  `int(current * 1.2) = current * 6 / 5` in `ℕ`.
- The stateful methods become pure functions of the state they read, returning
  the state they write.
-/

namespace MassUndelete

/-! ## Python string primitives -/

/-- Python substring test `needle in hay` over `List Char`. -/
def containsSub (needle hay : List Char) : Bool :=
  hay.tails.any (fun t => needle.isPrefixOf t)

/-- Python `s.split(sep)` for a one-character separator: the number of parts is
always one more than the number of separator occurrences, and empty parts are
kept, exactly as in Python. -/
def pySplit (sep : Char) : List Char → List (List Char)
  | [] => [[]]
  | c :: rest =>
    if c = sep then [] :: pySplit sep rest
    else
      match pySplit sep rest with
      | [] => [[c]]
      | h :: t => (c :: h) :: t

/-! ## Constants of `RestoreManager.__init__` (src lines 27-45) -/

def initial_concurrency : ℕ := 100

def min_concurrency : ℕ := 10

def max_concurrency : ℕ := 600

/-- Sliding window lookback, `self.window_duration = 10` (seconds). -/
def window_duration : ℚ := 10

/-- Seconds to wait before attempting recovery, `self.recovery_interval = 5`. -/
def recovery_interval : ℚ := 5

/-- Initial value of `self.last_error_time = 0` (src line 45). -/
def initial_last_error_time : ℚ := 0

/-- Deque capacity, `deque(maxlen=100)` (src line 38). -/
def window_capacity : ℕ := 100

/-! ## `is_5xx_error` (src lines 53-62) -/

def error_patterns : List (List Char) :=
  [("500 Server Error").data,
   ("502 Bad Gateway").data,
   ("503 Service Unavailable").data,
   ("504 Gateway Timeout").data,
   ("ServerBusy").data,
   ("ThrottlingError").data]

def is_5xx_error (error_str : List Char) : Bool :=
  error_patterns.any (fun pattern => containsSub pattern error_str)

/-! ## `get_error_rate` (src lines 64-76)

The error window is the deque contents: a list of `(timestamp, is_5xx)` pairs,
oldest first. The while-loop pops from the left while the head is older than
`window_duration`; `clean_window` is that loop's effect. -/

def clean_window (w : List (ℚ × Bool)) (now : ℚ) : List (ℚ × Bool) :=
  w.dropWhile (fun ev => decide (window_duration < now - ev.1))

def get_error_rate (w : List (ℚ × Bool)) (now : ℚ) : ℚ :=
  let kept := clean_window w now
  if kept.isEmpty then 0
  else
    ((kept.countP (fun ev => ev.2 && decide (now - ev.1 ≤ window_duration))) : ℚ)
      / (kept.length : ℚ)

/-! ## One pass of `adjust_concurrency` (src lines 78-111)

A tick is one non-skipped pass of the loop body (the `continue` debounce on
src lines 84-85 adjusts nothing). The tick reads the shared error window `w`,
`self.last_error_time` and the clock, and returns the new
`self.current_concurrency`; `min`/`max` bounds come from the state. The
branch guarded by `new_concurrency != self.current_concurrency` only skips a
no-op assignment, so the returned ceiling is the same either way. -/

def adjust_tick (minC maxC cur : ℕ) (w : List (ℚ × Bool)) (lastErr now : ℚ) : ℕ :=
  let error_rate := get_error_rate w now
  if error_rate > 1/10 then
    max (cur / 2) minC
  else if now - lastErr > recovery_interval ∧ cur < maxC then
    min (cur * 6 / 5) maxC
  else
    cur

/-- Iterated controller ticks from the initial state `current = 100`,
`min = 10`, `max = 600`; each tick sees an arbitrary window / last-error-time /
clock triple (those fields are mutated by the workers between ticks). -/
def adjust_run (inputs : List (List (ℚ × Bool) × ℚ × ℚ)) : ℕ :=
  inputs.foldl
    (fun cur i => adjust_tick min_concurrency max_concurrency cur i.1 i.2.1 i.2.2)
    initial_concurrency

/-! ## `restore_item` outcome handling (src lines 113-137) -/

/-- Marker substring of a benign conflict, src line 127. -/
def conflict_marker : List Char := ("BlobAlreadyExists").data

/-- Result of the remote `_undelete_path` call: success, or an exception whose
`str(e)` is the given message. -/
inductive CallResult where
  | success : CallResult
  | failed : List Char → CallResult
deriving DecidableEq

/-- Shared mutable fields of `RestoreManager` that `restore_item` touches. -/
structure WorkerState where
  restored_count : ℕ
  failed_count : ℕ
  error_window : List (ℚ × Bool)
  last_error_time : ℚ
deriving DecidableEq

/-- Append to `deque(maxlen=100)`: when full, the oldest entry is dropped. -/
def window_append (w : List (ℚ × Bool)) (ev : ℚ × Bool) : List (ℚ × Bool) :=
  let w2 := w ++ [ev]
  if window_capacity < w2.length then w2.drop (w2.length - window_capacity) else w2

/-- Effect of one `restore_item` call given the remote call's result and the
clock: the new state, the returned boolean, and whether a failure log line was
printed (src lines 135-136). -/
def restore_item_step (st : WorkerState) (res : CallResult) (now : ℚ) :
    WorkerState × Bool × Bool :=
  match res with
  | .success =>
      ({ st with restored_count := st.restored_count + 1 }, true, false)
  | .failed error_str =>
      if containsSub conflict_marker error_str then
        (st, false, false)
      else
        let is5 := is_5xx_error error_str
        ({ st with
            failed_count := st.failed_count + 1,
            error_window := window_append st.error_window (now, is5),
            last_error_time := if is5 then now else st.last_error_time },
         false, true)

/-! ## The dispatch gate (src lines 28, 98, 109, 114)

`restore_item` runs under `async with self.sem`. Crucially, `adjust_concurrency`
does not resize the semaphore: it rebinds `self.sem` to a *fresh*
`asyncio.Semaphore(new_capacity)` (src lines 98 and 109). A worker that enters
`async with self.sem` after the rebind draws a permit from the fresh semaphore;
workers admitted earlier hold permits of a replaced semaphore object and
release into that replaced object. The step relation below models exactly this:
`avail` is the free-permit count of the semaphore currently bound to
`self.sem`, `holders_cur` the in-flight workers holding its permits, and
`holders_old` the in-flight workers holding permits of replaced semaphores. -/

structure DispatcherState where
  current : ℕ
  avail : ℕ
  holders_cur : ℕ
  holders_old : ℕ
deriving DecidableEq

/-- Number of simultaneously admitted (in-flight) restore operations. -/
def in_flight (s : DispatcherState) : ℕ := s.holders_cur + s.holders_old

inductive DispatcherEvent where
  | acquire : DispatcherEvent
  | release_current : DispatcherEvent
  | release_old : DispatcherEvent
  | resize : ℕ → DispatcherEvent
deriving DecidableEq

/-- One transition of the gate: a worker acquires the semaphore currently bound
to `self.sem` (possible exactly when it has a free permit), a worker releases
the semaphore object it acquired from, or the controller installs a new
capacity by rebinding `self.sem` to a fresh full semaphore (src lines 97-98 and
108-109, executed only when the capacity actually changes). -/
inductive dispatcher_step : DispatcherState → DispatcherEvent → DispatcherState → Prop where
  | acquire {s : DispatcherState} (h : 0 < s.avail) :
      dispatcher_step s .acquire
        ⟨s.current, s.avail - 1, s.holders_cur + 1, s.holders_old⟩
  | release_current {s : DispatcherState} (h : 0 < s.holders_cur) :
      dispatcher_step s .release_current
        ⟨s.current, s.avail + 1, s.holders_cur - 1, s.holders_old⟩
  | release_old {s : DispatcherState} (h : 0 < s.holders_old) :
      dispatcher_step s .release_old
        ⟨s.current, s.avail, s.holders_cur, s.holders_old - 1⟩
  | resize {s : DispatcherState} {c : ℕ} (h : c ≠ s.current) :
      dispatcher_step s (.resize c)
        ⟨c, c, 0, s.holders_cur + s.holders_old⟩

/-- Initial gate state: `asyncio.Semaphore(100)` with no one in flight. -/
def dispatcher_init : DispatcherState :=
  ⟨initial_concurrency, initial_concurrency, 0, 0⟩

def dispatcher_reachable : DispatcherState → DispatcherState → Prop :=
  Relation.ReflTransGen (fun s t => ∃ e, dispatcher_step s e t)

/-! ## Batch scheduling (src lines 187-194) -/

/-- Dynamic batch size, src line 189: `min(1000, max(10, total_items // 3))`. -/
def batch_size (total_items : ℕ) : ℕ :=
  min 1000 (max 10 (total_items / 3))

/-- Consecutive slices `l[i:i+bs]` for `i in range(0, len(l), bs)`, src lines
190-191. Python raises on a zero step, so `bs = 0` never occurs (the batch
size is at least 10); the guard is only for termination. -/
def make_batches (bs : ℕ) (l : List α) : List (List α) :=
  if _h : bs = 0 then []
  else
    match l with
    | [] => []
    | a :: rest => (a :: rest).take bs :: make_batches bs ((a :: rest).drop bs)
termination_by l.length
decreasing_by
  simp only [List.length_drop, List.length_cons]
  omega

/-! ## Deleted items and depth sorting (src lines 174-185) -/

/-- Dictionary built for each listed path, src lines 175-179. -/
structure DeletedItem where
  path : List Char
  deletion_id : List Char
  depth : ℕ
deriving DecidableEq

/-- Construction of the item dictionary: `depth = len(item.name.split('/'))`. -/
def mk_deleted_item (name deletion_id : List Char) : DeletedItem :=
  ⟨name, deletion_id, (pySplit '/' name).length⟩

/-- Sort key relation of `deleted_items.sort(key=lambda x: x['depth'])`. -/
def by_depth (a b : DeletedItem) : Prop := a.depth ≤ b.depth

instance : DecidableRel by_depth := fun a b => Nat.decLe a.depth b.depth

instance : IsTotal DeletedItem by_depth := ⟨fun a b => Nat.le_total a.depth b.depth⟩

instance : IsTrans DeletedItem by_depth := ⟨fun _ _ _ hab hbc => Nat.le_trans hab hbc⟩

/-- Embedding of `deleted_items.sort(key=lambda x: x['depth'])` (src line 185):
a stable ascending sort by the depth key. -/
def sort_items (l : List DeletedItem) : List DeletedItem :=
  l.insertionSort by_depth

/-! ## Helper lemmas: the controller tick -/

lemma adjust_tick_backoff (minC maxC cur : ℕ) (w : List (ℚ × Bool)) (lastErr now : ℚ)
    (h : get_error_rate w now > 1/10) :
    adjust_tick minC maxC cur w lastErr now = max (cur / 2) minC := by
  simp only [adjust_tick]
  rw [if_pos h]

lemma adjust_tick_recovery (minC maxC cur : ℕ) (w : List (ℚ × Bool)) (lastErr now : ℚ)
    (hrate : get_error_rate w now ≤ 1/10) (hrec : now - lastErr > recovery_interval)
    (hcur : cur < maxC) :
    adjust_tick minC maxC cur w lastErr now = min (cur * 6 / 5) maxC := by
  simp only [adjust_tick]
  rw [if_neg (not_lt.mpr hrate), if_pos ⟨hrec, hcur⟩]

lemma adjust_tick_bounds (minC maxC cur : ℕ) (w : List (ℚ × Bool)) (lastErr now : ℚ)
    (h1 : minC ≤ cur) (h2 : cur ≤ maxC) :
    minC ≤ adjust_tick minC maxC cur w lastErr now ∧
      adjust_tick minC maxC cur w lastErr now ≤ maxC := by
  simp only [adjust_tick]
  split
  · constructor <;> omega
  · split
    · constructor <;> omega
    · exact ⟨h1, h2⟩

lemma adjust_foldl_bounds (minC maxC : ℕ) (inputs : List (List (ℚ × Bool) × ℚ × ℚ)) :
    ∀ cur : ℕ, minC ≤ cur → cur ≤ maxC →
      minC ≤ inputs.foldl (fun c i => adjust_tick minC maxC c i.1 i.2.1 i.2.2) cur ∧
        inputs.foldl (fun c i => adjust_tick minC maxC c i.1 i.2.1 i.2.2) cur ≤ maxC := by
  induction inputs with
  | nil => exact fun cur h1 h2 => ⟨h1, h2⟩
  | cons a t ih =>
    intro cur h1 h2
    simp only [List.foldl_cons]
    exact ih _ (adjust_tick_bounds minC maxC cur a.1 a.2.1 a.2.2 h1 h2).1
      (adjust_tick_bounds minC maxC cur a.1 a.2.1 a.2.2 h1 h2).2

lemma nat_mul_six_div_five_floor (cur : ℕ) :
    cur * 6 / 5 = ⌊(cur : ℚ) * (6/5 : ℚ)⌋₊ := by
  have h : (cur : ℚ) * (6/5 : ℚ) = ((cur * 6 : ℕ) : ℚ) / ((5 : ℕ) : ℚ) := by
    push_cast
    ring
  rw [h, Nat.floor_div_nat, Nat.floor_natCast]

lemma nat_div_two_floor (cur : ℕ) :
    cur / 2 = ⌊(cur : ℚ) * (1/2 : ℚ)⌋₊ := by
  have h : (cur : ℚ) * (1/2 : ℚ) = ((cur * 1 : ℕ) : ℚ) / ((2 : ℕ) : ℚ) := by
    push_cast
    ring
  rw [h, Nat.floor_div_nat, Nat.floor_natCast, Nat.mul_one]

/-! ## Claims C1, C3, C4, C10: the controller -/

/-- Claim C1, counterexample: the claim predicts `min(ceil(current * 1.2), max)`
after an error-free tick, but the source truncates (`int(...)`, src line 103).
At the reachable ceiling 172 (three recovery ticks from the initial 100), with
an empty error window, `last_error_time = 0` and clock 103, every precondition
of the claim holds, yet the code yields `int(172 * 1.2) = 206` while the claim
predicts `min(⌈206.4⌉, 600) = 207`. -/
theorem recovery_ceiling_counterexample :
    adjust_run [([], 0, 100), ([], 0, 101), ([], 0, 102)] = 172 ∧
    get_error_rate [] 103 = 0 ∧
    (103 : ℚ) - initial_last_error_time > recovery_interval ∧
    172 < max_concurrency ∧
    adjust_tick min_concurrency max_concurrency 172 [] initial_last_error_time 103 = 206 ∧
    min (⌈(172 : ℚ) * (6/5 : ℚ)⌉) ((max_concurrency : ℕ) : ℤ) = 207 ∧
    ((adjust_tick min_concurrency max_concurrency 172 [] initial_last_error_time 103 : ℕ) : ℤ)
      ≠ min (⌈(172 : ℚ) * (6/5 : ℚ)⌉) ((max_concurrency : ℕ) : ℤ) := by
  have htick :
      adjust_tick min_concurrency max_concurrency 172 [] initial_last_error_time 103 = 206 := by
    norm_num [adjust_tick, get_error_rate, clean_window, recovery_interval,
      initial_last_error_time, min_concurrency, max_concurrency]
  have hceil : (⌈(172 : ℚ) * (6/5 : ℚ)⌉ : ℤ) = 207 := by
    rw [Int.ceil_eq_iff]
    norm_num
  refine ⟨?_, ?_, ?_, ?_, htick, ?_, ?_⟩
  · norm_num [adjust_run, adjust_tick, get_error_rate, clean_window, recovery_interval,
      min_concurrency, max_concurrency, initial_concurrency]
  · simp [get_error_rate, clean_window]
  · norm_num [recovery_interval, initial_last_error_time]
  · norm_num [max_concurrency]
  · rw [hceil]
    norm_num [max_concurrency]
  · rw [htick, hceil]
    norm_num [max_concurrency]

/-- Claim C1, amended: on every controller tick on which `errorRate() ≤ 0.10`
(so the backoff branch does not fire), no server error has been observed for
longer than the recovery interval, and the current ceiling is strictly below
max, the new ceiling equals `min(floor(current * 1.2), max)` — the product is
truncated by Python's `int()`, not rounded up. -/
theorem recovery_ceiling_amended (minC maxC cur : ℕ) (w : List (ℚ × Bool)) (lastErr now : ℚ)
    (hrate : get_error_rate w now ≤ 1/10) (hrec : now - lastErr > recovery_interval)
    (hcur : cur < maxC) :
    adjust_tick minC maxC cur w lastErr now = min (cur * 6 / 5) maxC ∧
      cur * 6 / 5 = ⌊(cur : ℚ) * (6/5 : ℚ)⌋₊ :=
  ⟨adjust_tick_recovery minC maxC cur w lastErr now hrate hrec hcur,
    nat_mul_six_div_five_floor cur⟩

/-- Witness for the amended claim C1 at `current = 100`, an empty window and
clock 6: the tick raises the ceiling to `min(120, 600) = 120`. -/
theorem recovery_ceiling_amended_witness :
    (get_error_rate [] 6 ≤ 1/10 ∧ (6 : ℚ) - 0 > recovery_interval ∧ 100 < 600) ∧
      (adjust_tick 10 600 100 [] 0 6 = min (100 * 6 / 5) 600 ∧
        100 * 6 / 5 = ⌊(100 : ℚ) * (6/5 : ℚ)⌋₊) := by
  have hrate : get_error_rate [] 6 ≤ 1/10 := by
    simp [get_error_rate, clean_window]
  have hrec : (6 : ℚ) - 0 > recovery_interval := by
    norm_num [recovery_interval]
  exact ⟨⟨hrate, hrec, by norm_num⟩,
    recovery_ceiling_amended 10 600 100 [] 0 6 hrate hrec (by norm_num)⟩

/-- Claim C3: after any finite sequence of controller ticks from the initial
state (`current = 100`, `min = 10`, `max = 600`), whatever error windows,
last-error times and clock values each tick observes, the ceiling satisfies
`min ≤ current ≤ max`. -/
theorem concurrency_ceiling_invariant (inputs : List (List (ℚ × Bool) × ℚ × ℚ)) :
    min_concurrency ≤ adjust_run inputs ∧ adjust_run inputs ≤ max_concurrency := by
  have h := adjust_foldl_bounds min_concurrency max_concurrency inputs initial_concurrency
    (by norm_num [min_concurrency, initial_concurrency])
    (by norm_num [max_concurrency, initial_concurrency])
  exact h

/-- Claim C4: on every controller tick where `errorRate() > 0.10`, the new
ceiling equals `max(floor(current * 0.5), min)`. The last-error time is
universally quantified, so the decrease applies regardless of the recovery
cooldown; the backoff branch is the first one checked, so it takes priority
over an increase; and the tick returns this single value, so the ceiling is
adjusted at most once per tick. -/
theorem backoff_ceiling (minC maxC cur : ℕ) (w : List (ℚ × Bool)) (lastErr now : ℚ)
    (h : get_error_rate w now > 1/10) :
    adjust_tick minC maxC cur w lastErr now = max (cur / 2) minC ∧
      cur / 2 = ⌊(cur : ℚ) * (1/2 : ℚ)⌋₊ :=
  ⟨adjust_tick_backoff minC maxC cur w lastErr now h, nat_div_two_floor cur⟩

/-- Witness for claim C4: a window holding one fresh server error gives rate
`1 > 0.10`, and the tick at `current = 100` halves the ceiling to 50, even
though only one second has passed since the last error (cooldown ignored) and
`current < max` (decrease wins over increase). -/
theorem backoff_ceiling_witness :
    get_error_rate [((0 : ℚ), true)] 1 > 1/10 ∧
      (adjust_tick 10 600 100 [((0 : ℚ), true)] 0 1 = max (100 / 2) 10 ∧
        100 / 2 = ⌊(100 : ℚ) * (1/2 : ℚ)⌋₊) := by
  have h : get_error_rate [((0 : ℚ), true)] 1 > 1/10 := by
    norm_num [get_error_rate, clean_window, window_duration, List.dropWhile_cons,
      List.countP_cons]
  exact ⟨h, backoff_ceiling 10 600 100 [((0 : ℚ), true)] 0 1 h⟩

/-- Claim C10: `last_error_time` starts at 0 (the epoch, src line 45), so on
the very first tick — taken at any wall-clock instant later than the 5-second
recovery interval after the epoch, which always holds in practice — with
`errorRate() ≤ 0.10` and `current < max`, the ceiling immediately rises from
100 to `min(int(100 * 1.2), 600) = 120`, although no error-free operating
period was ever observed. -/
theorem startup_recovery_immediate :
    initial_last_error_time = 0 ∧
    ∀ (w : List (ℚ × Bool)) (now : ℚ),
      now - initial_last_error_time > recovery_interval →
      get_error_rate w now ≤ 1/10 →
      initial_concurrency < max_concurrency ∧
        adjust_tick min_concurrency max_concurrency initial_concurrency w
          initial_last_error_time now = 120 ∧
        initial_concurrency < 120 := by
  refine ⟨rfl, fun w now hrec hrate => ⟨?_, ?_, ?_⟩⟩
  · norm_num [initial_concurrency, max_concurrency]
  · rw [adjust_tick_recovery min_concurrency max_concurrency initial_concurrency w
      initial_last_error_time now hrate hrec
      (by norm_num [initial_concurrency, max_concurrency])]
    norm_num [initial_concurrency, max_concurrency]
  · norm_num [initial_concurrency]

/-- Witness for claim C10 at clock 6 with an empty window. -/
theorem startup_recovery_immediate_witness :
    ((6 : ℚ) - initial_last_error_time > recovery_interval ∧ get_error_rate [] 6 ≤ 1/10) ∧
      (initial_concurrency < max_concurrency ∧
        adjust_tick min_concurrency max_concurrency initial_concurrency []
          initial_last_error_time 6 = 120 ∧
        initial_concurrency < 120) := by
  have hrec : (6 : ℚ) - initial_last_error_time > recovery_interval := by
    norm_num [recovery_interval, initial_last_error_time]
  have hrate : get_error_rate [] 6 ≤ 1/10 := by
    simp [get_error_rate, clean_window]
  exact ⟨⟨hrec, hrate⟩, startup_recovery_immediate.2 [] 6 hrec hrate⟩

/-! ## Helper lemmas: the sliding error window -/

lemma dropWhile_eq_filter_not {α : Type*} (p : α → Bool) :
    ∀ l : List α, l.Pairwise (fun a b => p b = true → p a = true) →
      l.dropWhile p = l.filter (fun x => !p x) := by
  intro l
  induction l with
  | nil => intro _; rfl
  | cons a l ih =>
    intro h
    rcases List.pairwise_cons.mp h with ⟨ha, hl⟩
    cases hpa : p a with
    | true =>
      simp only [List.dropWhile_cons, List.filter_cons, hpa, if_true, Bool.not_true,
        Bool.false_eq_true, if_false]
      exact ih hl
    | false =>
      simp only [List.dropWhile_cons, List.filter_cons, hpa, Bool.false_eq_true, if_false,
        Bool.not_false, if_true]
      have hall : ∀ b ∈ l, (!p b) = true := by
        intro b hb
        cases hpb : p b with
        | true => exact absurd (ha b hb hpb) (by simp [hpa])
        | false => simp
      rw [List.filter_eq_self.mpr hall]

/-- With timestamps appended in non-decreasing order (as `restore_item` does,
stamping each event with the current clock), the head-popping loop of
`get_error_rate` removes exactly the entries older than the window. -/
lemma clean_window_eq_filter (w : List (ℚ × Bool)) (now : ℚ)
    (hs : w.Pairwise (fun a b => a.1 ≤ b.1)) :
    clean_window w now = w.filter (fun ev => decide (now - ev.1 ≤ window_duration)) := by
  have hmono : w.Pairwise (fun a b : ℚ × Bool =>
      decide (window_duration < now - b.1) = true →
      decide (window_duration < now - a.1) = true) := by
    refine hs.imp ?_
    intro a b hab hb
    simp only [decide_eq_true_eq] at hb ⊢
    linarith
  have hfun : (fun x : ℚ × Bool => !decide (window_duration < now - x.1)) =
      (fun ev : ℚ × Bool => decide (now - ev.1 ≤ window_duration)) := by
    funext x
    rw [← decide_not]
    exact decide_eq_decide.mpr not_lt
  rw [clean_window, dropWhile_eq_filter_not _ w hmono, hfun]

lemma get_error_rate_nonneg (w : List (ℚ × Bool)) (now : ℚ) :
    0 ≤ get_error_rate w now := by
  rw [get_error_rate]
  split
  · norm_num
  · positivity

lemma get_error_rate_le_one (w : List (ℚ × Bool)) (now : ℚ) :
    get_error_rate w now ≤ 1 := by
  rw [get_error_rate]
  split
  · norm_num
  · exact div_le_one_of_le₀
      (by exact_mod_cast List.countP_le_length _)
      (by positivity)

/-! ## Claim C5: the error-rate query -/

/-- Claim C5: over any window of events recorded at non-decreasing timestamps,
`get_error_rate` first discards the entries older than the window duration
(default 10s), then returns the number of server-error entries divided by the
total number of remaining entries, or 0 if none remain; an event recorded at
`t0` is gone from the retained window at every query time `t0 + 10 + ε` with
`ε > 0`; and the result always lies in `[0, 1]`. -/
theorem error_rate_window (w : List (ℚ × Bool)) (now : ℚ)
    (hs : w.Pairwise (fun a b => a.1 ≤ b.1)) :
    clean_window w now = w.filter (fun ev => decide (now - ev.1 ≤ window_duration)) ∧
    get_error_rate w now =
      (if (w.filter (fun ev => decide (now - ev.1 ≤ window_duration))).isEmpty then 0
       else ((w.filter (fun ev => decide (now - ev.1 ≤ window_duration))).countP
              (fun ev => ev.2) : ℚ)
         / ((w.filter (fun ev => decide (now - ev.1 ≤ window_duration))).length : ℚ)) ∧
    (∀ (t0 : ℚ) (b : Bool) (eps : ℚ), 0 < eps → now = t0 + window_duration + eps →
      (t0, b) ∉ clean_window w now) ∧
    0 ≤ get_error_rate w now ∧ get_error_rate w now ≤ 1 := by
  have hclean := clean_window_eq_filter w now hs
  refine ⟨hclean, ?_, ?_, get_error_rate_nonneg w now, get_error_rate_le_one w now⟩
  · rw [get_error_rate]
    rw [hclean]
    have hnum :
        (w.filter (fun ev => decide (now - ev.1 ≤ window_duration))).countP
            (fun ev => ev.2 && decide (now - ev.1 ≤ window_duration)) =
          (w.filter (fun ev => decide (now - ev.1 ≤ window_duration))).countP
            (fun ev => ev.2) := by
      refine List.countP_congr ?_
      intro ev hev
      have hkept := (List.mem_filter.mp hev).2
      simp only [decide_eq_true_eq] at hkept
      simp [hkept]
    rw [hnum]
  · intro t0 b eps heps hnow hmem
    rw [hclean] at hmem
    have hin := (List.mem_filter.mp hmem).2
    simp only [decide_eq_true_eq] at hin
    rw [hnow] at hin
    linarith

/-- Witness for claim C5 on the window `[(3, server-error), (5, other)]`
queried at time 6. -/
theorem error_rate_window_witness :
    (List.Pairwise (fun a b : ℚ × Bool => a.1 ≤ b.1) [(3, true), (5, false)]) ∧
      0 ≤ get_error_rate [((3 : ℚ), true), (5, false)] 6 ∧
      get_error_rate [((3 : ℚ), true), (5, false)] 6 ≤ 1 := by
  have hs : List.Pairwise (fun a b : ℚ × Bool => a.1 ≤ b.1) [(3, true), (5, false)] := by
    norm_num
  exact ⟨hs, (error_rate_window [((3 : ℚ), true), (5, false)] 6 hs).2.2.2⟩

/-! ## Claims C6 and C9: the worker's failure handling -/

/-- Claim C6: a failure whose message carries the conflict / already-restored
signature (`"BlobAlreadyExists" in str(e)`) leaves `failed_count` untouched,
records no event in the error window, does not update `last_error_time`, and
prints no failure log line. -/
theorem conflict_error_benign (st : WorkerState) (error_str : List Char) (now : ℚ)
    (h : containsSub conflict_marker error_str = true) :
    (restore_item_step st (.failed error_str) now).1.failed_count = st.failed_count ∧
    (restore_item_step st (.failed error_str) now).1.error_window = st.error_window ∧
    (restore_item_step st (.failed error_str) now).1.last_error_time = st.last_error_time ∧
    (restore_item_step st (.failed error_str) now).2.2 = false := by
  simp [restore_item_step, h]

/-- Witness for claim C6 on the message `"BlobAlreadyExists"` itself. -/
theorem conflict_error_benign_witness :
    containsSub conflict_marker conflict_marker = true ∧
      ((restore_item_step ⟨0, 0, [], 0⟩ (.failed conflict_marker) 0).1.failed_count =
          (⟨0, 0, [], 0⟩ : WorkerState).failed_count ∧
        (restore_item_step ⟨0, 0, [], 0⟩ (.failed conflict_marker) 0).1.error_window =
          (⟨0, 0, [], 0⟩ : WorkerState).error_window ∧
        (restore_item_step ⟨0, 0, [], 0⟩ (.failed conflict_marker) 0).1.last_error_time =
          (⟨0, 0, [], 0⟩ : WorkerState).last_error_time ∧
        (restore_item_step ⟨0, 0, [], 0⟩ (.failed conflict_marker) 0).2.2 = false) :=
  ⟨by decide, conflict_error_benign ⟨0, 0, [], 0⟩ conflict_marker 0 (by decide)⟩

/-- Claim C9: `restore_item` returns `True` exactly on a successful restore
call and `False` on every failure — a benign conflict yields the same `False`
as a counted hard failure (here `"503 Service Unavailable"`), even though only
the hard failure increments `failed_count`, so the return value alone cannot
distinguish the two. -/
theorem restore_return_value (st : WorkerState) (now : ℚ) :
    (restore_item_step st .success now).2.1 = true ∧
    (∀ error_str, (restore_item_step st (.failed error_str) now).2.1 = false) ∧
    (restore_item_step st (.failed conflict_marker) now).2.1 =
      (restore_item_step st (.failed (("503 Service Unavailable").data)) now).2.1 ∧
    (restore_item_step st (.failed conflict_marker) now).1.failed_count = st.failed_count ∧
    (restore_item_step st (.failed (("503 Service Unavailable").data)) now).1.failed_count =
      st.failed_count + 1 := by
  have hconf : containsSub conflict_marker conflict_marker = true := by decide
  have h503 : containsSub conflict_marker (("503 Service Unavailable").data) = false := by
    decide
  refine ⟨rfl, ?_, ?_, ?_, ?_⟩
  · intro error_str
    by_cases hc : containsSub conflict_marker error_str <;> simp [restore_item_step, hc]
  · simp [restore_item_step, hconf, h503]
  · simp [restore_item_step, hconf]
  · simp [restore_item_step, h503]

/-! ## Claim C2: the dispatch gate -/

/-- Claim C2 fails on the code: from the initial gate (capacity 100, idle),
two workers are admitted, the controller lowers the capacity to 1 — which
rebinds `self.sem` to a fresh `asyncio.Semaphore(1)` (src line 98) — and then
a third worker's `acquire` succeeds immediately from the fresh semaphore's
permit even though 2 operations are already in flight and the capacity at the
instant of admission is 1. The spec's admission bound (in-flight < current
capacity, with overshoot only from holders admitted before a decrease) is the
clear intent of the gate; replacing the semaphore instead of resizing it is
the slip. -/
theorem dispatcher_overadmission_bug :
    dispatcher_reachable dispatcher_init ⟨1, 1, 0, 2⟩ ∧
    dispatcher_step ⟨1, 1, 0, 2⟩ .acquire ⟨1, 0, 1, 2⟩ ∧
    ¬ in_flight ⟨1, 1, 0, 2⟩ < DispatcherState.current ⟨1, 1, 0, 2⟩ := by
  have h1 : dispatcher_step dispatcher_init .acquire ⟨100, 99, 1, 0⟩ :=
    dispatcher_step.acquire (by norm_num [dispatcher_init, initial_concurrency])
  have h2 : dispatcher_step ⟨100, 99, 1, 0⟩ .acquire ⟨100, 98, 2, 0⟩ :=
    dispatcher_step.acquire (by norm_num)
  have h3 : dispatcher_step ⟨100, 98, 2, 0⟩ (.resize 1) ⟨1, 1, 0, 2⟩ :=
    dispatcher_step.resize (by norm_num)
  refine ⟨?_, dispatcher_step.acquire (by norm_num), by decide⟩
  exact Relation.ReflTransGen.head ⟨_, h1⟩
    (Relation.ReflTransGen.head ⟨_, h2⟩
      (Relation.ReflTransGen.head ⟨_, h3⟩ Relation.ReflTransGen.refl))

/-! ## Helper lemmas: batching -/

lemma make_batches_nil (bs : ℕ) : make_batches bs ([] : List α) = [] := by
  rw [make_batches.eq_def]
  split
  · rfl
  · rfl

lemma make_batches_step (bs : ℕ) (hbs : bs ≠ 0) (l : List α) (hl : l ≠ []) :
    make_batches bs l = l.take bs :: make_batches bs (l.drop bs) := by
  rcases l with _ | ⟨a, rest⟩
  · exact absurd rfl hl
  · conv_lhs => rw [make_batches.eq_def]
    simp [hbs]

lemma make_batches_flatten_aux (bs : ℕ) (hbs : bs ≠ 0) :
    ∀ n, ∀ l : List α, l.length = n → (make_batches bs l).flatten = l := by
  intro n
  induction n using Nat.strong_induction_on with
  | _ n ih =>
    intro l hn
    rcases l with _ | ⟨a, rest⟩
    · simp [make_batches_nil]
    · rw [make_batches_step bs hbs _ (by simp), List.flatten_cons,
        ih ((a :: rest).drop bs).length
          (by simp only [List.length_drop, List.length_cons] at hn ⊢; omega) _ rfl]
      exact List.take_append_drop bs (a :: rest)

lemma make_batches_flatten (bs : ℕ) (hbs : bs ≠ 0) (l : List α) :
    (make_batches bs l).flatten = l :=
  make_batches_flatten_aux bs hbs l.length l rfl

lemma make_batches_mem_le_aux (bs : ℕ) (hbs : bs ≠ 0) :
    ∀ n, ∀ l : List α, l.length = n → ∀ c ∈ make_batches bs l, c.length ≤ bs := by
  intro n
  induction n using Nat.strong_induction_on with
  | _ n ih =>
    intro l hn c hc
    rcases l with _ | ⟨a, rest⟩
    · rw [make_batches_nil] at hc
      exact absurd hc (List.not_mem_nil c)
    · rw [make_batches_step bs hbs _ (by simp)] at hc
      rcases List.mem_cons.mp hc with hc | hc
      · rw [hc, List.length_take]
        exact min_le_left _ _
      · exact ih ((a :: rest).drop bs).length
          (by simp only [List.length_drop, List.length_cons] at hn ⊢; omega) _ rfl c hc

lemma make_batches_mem_le (bs : ℕ) (hbs : bs ≠ 0) (l : List α) :
    ∀ c ∈ make_batches bs l, c.length ≤ bs :=
  make_batches_mem_le_aux bs hbs l.length l rfl

lemma make_batches_dropLast_aux (bs : ℕ) (hbs : bs ≠ 0) :
    ∀ n, ∀ l : List α, l.length = n → ∀ c ∈ (make_batches bs l).dropLast, c.length = bs := by
  intro n
  induction n using Nat.strong_induction_on with
  | _ n ih =>
    intro l hn c hc
    rcases l with _ | ⟨a, rest⟩
    · rw [make_batches_nil] at hc
      exact absurd hc (List.not_mem_nil c)
    · rw [make_batches_step bs hbs _ (by simp)] at hc
      by_cases hd : (a :: rest).drop bs = []
      · rw [hd, make_batches_nil, List.dropLast_single] at hc
        exact absurd hc (List.not_mem_nil c)
      · have hlt : bs < (a :: rest).length := by
          by_contra hcon
          push_neg at hcon
          exact hd (List.drop_eq_nil_iff.mpr hcon)
        rcases hrec : make_batches bs ((a :: rest).drop bs) with _ | ⟨b, bl⟩
        · rw [make_batches_step bs hbs _ hd] at hrec
          exact absurd hrec (by simp)
        · rw [hrec, List.dropLast_cons₂] at hc
          rcases List.mem_cons.mp hc with hc | hc
          · rw [hc, List.length_take]
            omega
          · rw [← hrec] at hc
            exact ih ((a :: rest).drop bs).length
              (by simp only [List.length_drop, List.length_cons] at hn ⊢; omega) _ rfl c hc

lemma make_batches_dropLast (bs : ℕ) (hbs : bs ≠ 0) (l : List α) :
    ∀ c ∈ (make_batches bs l).dropLast, c.length = bs :=
  make_batches_dropLast_aux bs hbs l.length l rfl

lemma make_batches_ten_length_aux :
    ∀ n, ∀ l : List α, l.length = n → (make_batches 10 l).length = (l.length + 9) / 10 := by
  intro n
  induction n using Nat.strong_induction_on with
  | _ n ih =>
    intro l hn
    rcases l with _ | ⟨a, rest⟩
    · simp [make_batches_nil]
    · rw [make_batches_step 10 (by norm_num) _ (by simp), List.length_cons,
        ih ((a :: rest).drop 10).length
          (by simp only [List.length_drop, List.length_cons] at hn ⊢; omega) _ rfl]
      simp only [List.length_drop, List.length_cons]
      omega

lemma make_batches_ten_length (l : List α) :
    (make_batches 10 l).length = (l.length + 9) / 10 :=
  make_batches_ten_length_aux l.length l rfl

/-! ## Claim C7: batch sizing and splitting -/

/-- Claim C7: for every non-empty item list of `n` items the batch size is
`clamp(n / 3, 10, 1000)` (integer division), the list is split into
consecutive slices of that size whose concatenation is the whole list with
only the last slice possibly smaller, a non-empty list of fewer than 10 items
forms exactly one batch, and 30 items give batch size 10 in exactly 3
batches. -/
theorem run_async_batching (l : List DeletedItem) (hl : l ≠ []) :
    batch_size l.length = min (max (l.length / 3) 10) 1000 ∧
    (make_batches (batch_size l.length) l).flatten = l ∧
    (∀ c ∈ make_batches (batch_size l.length) l, c.length ≤ batch_size l.length) ∧
    (∀ c ∈ (make_batches (batch_size l.length) l).dropLast,
      c.length = batch_size l.length) ∧
    (l.length < 10 → (make_batches (batch_size l.length) l).length = 1) ∧
    (l.length = 30 → batch_size l.length = 10 ∧
      (make_batches (batch_size l.length) l).length = 3) := by
  have hbs : batch_size l.length ≠ 0 := by
    unfold batch_size
    omega
  have hpos : 0 < l.length := List.length_pos.mpr hl
  refine ⟨?_, make_batches_flatten _ hbs l, make_batches_mem_le _ hbs l,
    make_batches_dropLast _ hbs l, ?_, ?_⟩
  · unfold batch_size
    omega
  · intro hsmall
    have h10 : batch_size l.length = 10 := by
      unfold batch_size
      omega
    rw [h10, make_batches_ten_length]
    omega
  · intro h30
    have h10 : batch_size l.length = 10 := by
      unfold batch_size
      omega
    refine ⟨h10, ?_⟩
    rw [h10, make_batches_ten_length, h30]

/-- Witness for claim C7 on a one-item list. -/
theorem run_async_batching_witness :
    ([mk_deleted_item ("a").data ("1").data] ≠ []) ∧
      (batch_size [mk_deleted_item ("a").data ("1").data].length =
        min (max ([mk_deleted_item ("a").data ("1").data].length / 3) 10) 1000 ∧
      (make_batches (batch_size [mk_deleted_item ("a").data ("1").data].length)
        [mk_deleted_item ("a").data ("1").data]).flatten =
          [mk_deleted_item ("a").data ("1").data] ∧
      (∀ c ∈ make_batches (batch_size [mk_deleted_item ("a").data ("1").data].length)
          [mk_deleted_item ("a").data ("1").data],
        c.length ≤ batch_size [mk_deleted_item ("a").data ("1").data].length) ∧
      (∀ c ∈ (make_batches (batch_size [mk_deleted_item ("a").data ("1").data].length)
          [mk_deleted_item ("a").data ("1").data]).dropLast,
        c.length = batch_size [mk_deleted_item ("a").data ("1").data].length) ∧
      ([mk_deleted_item ("a").data ("1").data].length < 10 →
        (make_batches (batch_size [mk_deleted_item ("a").data ("1").data].length)
          [mk_deleted_item ("a").data ("1").data]).length = 1) ∧
      ([mk_deleted_item ("a").data ("1").data].length = 30 →
        batch_size [mk_deleted_item ("a").data ("1").data].length = 10 ∧
        (make_batches (batch_size [mk_deleted_item ("a").data ("1").data].length)
          [mk_deleted_item ("a").data ("1").data]).length = 3)) :=
  ⟨by simp, run_async_batching [mk_deleted_item ("a").data ("1").data] (by simp)⟩

/-! ## Claim C8: depth-ascending sort -/

/-- Claim C8: before batching the item list is sorted ascending by `depth`,
the number of `'/'`-separated segments of the path; the sorted list is a
permutation of the input, and the concrete items with depths `[3, 1, 2, 1]`
sort to depth order `[1, 1, 2, 3]`. -/
theorem depth_sort_correct (l : List DeletedItem) :
    List.Perm (sort_items l) l ∧
    List.Sorted by_depth (sort_items l) ∧
    (∀ name deletion_id : List Char,
      (mk_deleted_item name deletion_id).depth = (pySplit '/' name).length) ∧
    (sort_items
        [mk_deleted_item ("a/b/c").data ("1").data,
         mk_deleted_item ("a").data ("2").data,
         mk_deleted_item ("a/b").data ("3").data,
         mk_deleted_item ("d").data ("4").data]).map DeletedItem.depth = [1, 1, 2, 3] :=
  ⟨List.perm_insertionSort by_depth l, List.sorted_insertionSort by_depth l,
    fun _ _ => rfl, by decide⟩

end MassUndelete
